import Mathlib

/-
Verification of the bluePrint language front end (lexer, token model, AST,
recursive-descent parser).

Shallow embedding conventions:
- C++ std::string source text is modeled as List Char.  The Lexer object
  stores its source and never modifies it, so the source is embedded as a
  fixed first argument src of every operation rather than as a mutable
  field; the remaining Lexer fields form the LexState record, with the
  read cursor (size_t currentIndex) as a Nat index into src.
- int16_t token codes are modeled as Int: negative named tokens from
  tokens.hpp, and a raw character code (Char.toNat) for single-character
  tokens.  EOF is the Int -1, as in the C++ code.
- Each C++ while/do-while loop, and the comment recursion inside
  Lexer::getNextToken, is embedded as structural recursion on an explicit
  fuel argument.  Wrappers pass fuel src.length + 1, which exceeds the
  iteration count of every character-consuming loop, so the fuel-exhausted
  branch is never taken by the wrappers; theorems about loops that the C++
  code can run forever quantify over all fuel values.
- The float literal payload (double floatValue / strtod) is outside the
  embedding: no claim depends on it, so tok_float_literal carries no value
  here.  boolValue and charValue are fields that the C++ lexer never
  writes (they stay uninitialized in the source); they are kept as inert
  fields with arbitrary initial values.
-/

namespace BluePrint

/-! Token codes, from src/lexer/tokens.hpp. -/

def tok_eof : Int := -1
def tok_i32 : Int := -10
def tok_f32 : Int := -11
def tok_bool : Int := -12
def tok_char : Int := -13
def tok_void : Int := -14
def tok_true : Int := -50
def tok_false : Int := -51
def tok_integer_literal : Int := -52
def tok_float_literal : Int := -53
def tok_char_literal : Int := -54
def tok_identifier : Int := -100
def tok_class : Int := -150
def tok_if : Int := -200
def tok_else : Int := -201
def tok_while : Int := -202
def tok_public : Int := -250

/-- TokenUtils::isPrimitiveTypeToken from tokens.hpp. -/
def isPrimitiveTypeToken (t : Int) : Bool :=
  t = tok_i32 ∨ t = tok_f32 ∨ t = tok_bool ∨ t = tok_char ∨ t = tok_void

/-- TokenUtils::isAccessModifierToken from tokens.hpp (the only access
modifier token is tok_public). -/
def isAccessModifierToken (t : Int) : Bool := t = tok_public

/-! Character classification, as the C ctype functions behave on the ASCII
inputs this lexer receives.  Arguments are char codes (Char.toNat). -/

def isspace (c : Nat) : Bool := c = 32 ∨ c = 9 ∨ c = 10 ∨ c = 11 ∨ c = 12 ∨ c = 13

def isdigit (c : Nat) : Bool := 48 ≤ c ∧ c ≤ 57

def isalpha (c : Nat) : Bool := (65 ≤ c ∧ c ≤ 90) ∨ (97 ≤ c ∧ c ≤ 122)

def isalnum (c : Nat) : Bool := isalpha c ∨ isdigit c

/-! The lexer state, from src/lexer/lexer.h, minus the immutable source
string (the src argument below).  The constructor sets currentToken to 0
and leaves the payload fields uninitialized; initLexer gives them
arbitrary fixed values. -/

structure LexState where
  currentIndex : Nat
  currentToken : Int
  integerValue : Int
  identifierName : List Char
  boolValue : Bool
  charValue : Char
  deriving DecidableEq, Repr

/-- A fresh lexer state (the Lexer constructor). -/
def initLexer : LexState :=
  { currentIndex := 0, currentToken := 0, integerValue := 0,
    identifierName := [], boolValue := false, charValue := Char.ofNat 0 }

/-- Lexer::getchar: returns the character at the cursor and advances, or
none (EOF) at end of input, leaving the cursor unchanged. -/
def getch (src : List Char) (st : LexState) : Option Char × LexState :=
  if h : st.currentIndex < src.length then
    (some (src.get ⟨st.currentIndex, h⟩),
     { st with currentIndex := st.currentIndex + 1 })
  else (none, st)

/-- Lexer::ungetCurrentToken: rewinds the cursor by exactly one character.
Note the C++ code decrements currentIndex unconditionally, even when the
preceding getchar returned EOF without advancing. -/
def ungetChar (st : LexState) : LexState :=
  { st with currentIndex := st.currentIndex - 1 }

/-- The whitespace-skipping loop at the top of Lexer::getNextToken:
repeatedly getchar while the result is a space; returns the first
non-space character, or none if EOF was reached.  (The C++ loop starts
from lastChar = a space, so it always fetches at least once.) -/
def skipWSF (src : List Char) : Nat → LexState → Option Char × LexState
  | 0, st => (none, st)
  | fuel + 1, st =>
    if h : st.currentIndex < src.length then
      let ch := src.get ⟨st.currentIndex, h⟩
      let st' := { st with currentIndex := st.currentIndex + 1 }
      if isspace ch.toNat then skipWSF src fuel st' else (some ch, st')
    else (none, st)

def skipWS (src : List Char) (st : LexState) : Option Char × LexState :=
  skipWSF src (src.length + 1) st

/-- The identifier do-while loop in Lexer::getNextToken: append lastChar,
fetch the next character, continue while it is alphanumeric.  Returns the
scanned text and the state after the final getchar (the caller then calls
ungetCurrentToken). -/
def scanIdentF (src : List Char) : Nat → Char → LexState → List Char → List Char × LexState
  | 0, lastChar, st, acc => (acc ++ [lastChar], st)
  | fuel + 1, lastChar, st, acc =>
    let acc := acc ++ [lastChar]
    if h : st.currentIndex < src.length then
      let ch := src.get ⟨st.currentIndex, h⟩
      let st' := { st with currentIndex := st.currentIndex + 1 }
      if isalnum ch.toNat then scanIdentF src fuel ch st' acc
      else (acc, st')
    else (acc, st)

def scanIdent (src : List Char) (lastChar : Char) (st : LexState) : List Char × LexState :=
  scanIdentF src (src.length + 1) lastChar st []

/-- The numeric do-while loop in Lexer::getNextToken: at each iteration a
second decimal point is a lexical error (none); otherwise the character is
appended and the next one fetched, continuing while it is a digit or a
dot.  The terminating character is consumed and not pushed back. -/
def scanNumF (src : List Char) :
    Nat → Char → Bool → LexState → List Char → Option (List Char × Bool) × LexState
  | 0, _, _, st, _ => (none, st)
  | fuel + 1, lastChar, isFloat, st, acc =>
    if lastChar = '.' ∧ isFloat then (none, st)
    else
      let isFloat := isFloat || lastChar = '.'
      let acc := acc ++ [lastChar]
      if h : st.currentIndex < src.length then
        let ch := src.get ⟨st.currentIndex, h⟩
        let st' := { st with currentIndex := st.currentIndex + 1 }
        if isdigit ch.toNat ∨ ch = '.' then scanNumF src fuel ch isFloat st' acc
        else (some (acc, isFloat), st')
      else (some (acc, isFloat), st)

def scanNum (src : List Char) (lastChar : Char) (st : LexState) :
    Option (List Char × Bool) × LexState :=
  scanNumF src (src.length + 1) lastChar false st []

/-- The single-line comment loop: getchar until EOF, a newline or a
carriage return; returns the terminating character (none for EOF). -/
def skipLineF (src : List Char) : Nat → LexState → Option Char × LexState
  | 0, st => (none, st)
  | fuel + 1, st =>
    if h : st.currentIndex < src.length then
      let ch := src.get ⟨st.currentIndex, h⟩
      let st' := { st with currentIndex := st.currentIndex + 1 }
      if ch = '\n' ∨ ch = '\r' then (some ch, st') else skipLineF src fuel st'
    else (none, st)

def skipLine (src : List Char) (st : LexState) : Option Char × LexState :=
  skipLineF src (src.length + 1) st

/-- The multi-line comment loop: getchar; EOF yields false (unterminated);
after a star, a further getchar is compared against a slash (that inner
character is otherwise dropped without further examination, as in the
source). -/
def skipBlockF (src : List Char) : Nat → LexState → Bool × LexState
  | 0, st => (false, st)
  | fuel + 1, st =>
    if h : st.currentIndex < src.length then
      let ch := src.get ⟨st.currentIndex, h⟩
      let st1 := { st with currentIndex := st.currentIndex + 1 }
      if ch = '*' then
        if h2 : st1.currentIndex < src.length then
          let ch2 := src.get ⟨st1.currentIndex, h2⟩
          let st2 := { st1 with currentIndex := st1.currentIndex + 1 }
          if ch2 = '/' then (true, st2) else skipBlockF src fuel st2
        else (false, st1)
      else skipBlockF src fuel st1
    else (false, st)

def skipBlock (src : List Char) (st : LexState) : Bool × LexState :=
  skipBlockF src (src.length + 1) st

/-- Lexer::getKeywordToken: the fixed keyword table; unknown text becomes
tok_identifier and is stored as the identifier payload. -/
def getKeywordToken (identifier : List Char) (st : LexState) : Int × LexState :=
  if identifier = "i32".toList then (tok_i32, st)
  else if identifier = "f32".toList then (tok_f32, st)
  else if identifier = "bool".toList then (tok_bool, st)
  else if identifier = "char".toList then (tok_char, st)
  else if identifier = "void".toList then (tok_void, st)
  else if identifier = "true".toList then (tok_true, st)
  else if identifier = "false".toList then (tok_false, st)
  else if identifier = "class".toList then (tok_class, st)
  else if identifier = "if".toList then (tok_if, st)
  else if identifier = "else".toList then (tok_else, st)
  else if identifier = "while".toList then (tok_while, st)
  else if identifier = "public".toList then (tok_public, st)
  else (tok_identifier, { st with identifierName := identifier })

/-- The base-10 value of a digit string, most significant digit first. -/
def natOfDigits (s : List Char) : Nat :=
  s.foldl (fun a c => a * 10 + (c.toNat - 48)) 0

/-- strtoll on a digit-only string: the base-10 value, saturated at the
largest 64-bit signed value. -/
def strtollDigits (s : List Char) : Int :=
  min (natOfDigits s : Int) (2 ^ 63 - 1)

/-- The implicit conversion of the 64-bit strtoll result into the 32-bit
int field integerValue (wraparound into the signed 32-bit range). -/
def wrap32 (v : Int) : Int := (v + 2 ^ 31) % 2 ^ 32 - 2 ^ 31

/-- Lexer::getNextToken, from src/lexer/lexer.cpp.  The fuel argument
bounds the comment recursion; getNextToken passes src.length + 1.  Return
paths that do not assign this->currentToken in the C++ code (EOF after
whitespace, the multiple-decimal-point error, EOF inside a multi-line
comment) leave the currentToken field unchanged here too. -/
def getNextTokenF (src : List Char) : Nat → LexState → Int × LexState
  | 0, st => (tok_eof, st)
  | fuel + 1, st =>
    match skipWS src st with
    | (none, st) => (tok_eof, st)
    | (some ch, st) =>
      if isalpha ch.toNat then
        let p := scanIdent src ch st
        let st := ungetChar p.2
        let q := getKeywordToken p.1 st
        (q.1, { q.2 with currentToken := q.1 })
      else if isdigit ch.toNat ∨ ch = '.' then
        match scanNum src ch st with
        | (none, st) => (tok_eof, st)
        | (some (numStr, isFloat), st) =>
          if isFloat then
            (tok_float_literal, { st with currentToken := tok_float_literal })
          else
            let v := wrap32 (strtollDigits numStr)
            (tok_integer_literal,
             { st with integerValue := v, currentToken := tok_integer_literal })
      else if ch = '/' then
        match getch src st with
        | (some c2, st) =>
          if c2 = '/' then
            match skipLine src st with
            | (some _, st) => getNextTokenF src fuel st
            | (none, st) => (-1, { st with currentToken := -1 })
          else if c2 = '*' then
            match skipBlock src st with
            | (true, st) => getNextTokenF src fuel st
            | (false, st) => (tok_eof, st)
          else
            ((c2.toNat : Int), { st with currentToken := (c2.toNat : Int) })
        | (none, st) => (-1, { st with currentToken := -1 })
      else
        ((ch.toNat : Int), { st with currentToken := (ch.toNat : Int) })

def getNextToken (src : List Char) (st : LexState) : Int × LexState :=
  getNextTokenF src (src.length + 1) st

/-- The n-th token (0-based) produced by repeated getNextToken calls. -/
def tokenAt (src : List Char) (st : LexState) : Nat → Int
  | 0 => (getNextToken src st).1
  | n + 1 => tokenAt src (getNextToken src st).2 n

/-! The AST node model, from src/ast (commonAST.h, exprAST.h, stmtAST.h,
classAST.h), as closed sum types.  Node names keep the source names. -/

inductive PrimitiveKind where
  | INT32 | FLOAT32 | BOOL | CHAR | VOID
  deriving DecidableEq, Repr

/-- TypeAST with its single concrete variant PrimitiveTypeAST. -/
inductive TypeAST where
  | primitive (kind : PrimitiveKind)
  deriving DecidableEq, Repr

structure TypedIdentifierAST where
  type : TypeAST
  name : List Char
  deriving DecidableEq, Repr

/-- ExprAST and its concrete variants.  BinaryExprAST and UnaryExprAST
store their operator as an int in the source; the float literal payload is
outside the embedding (no claim depends on it). -/
inductive ExprAST where
  | integerLit (value : Int)
  | floatLit
  | boolLit (value : Bool)
  | charLit (value : Char)
  | identifierExpr (name : List Char)
  | binaryExpr (op : Int) (lhs rhs : ExprAST)
  | unaryExpr (op : Int) (operand : ExprAST)
  deriving DecidableEq, Repr

/-- StmtAST and its concrete variants from stmtAST.h. -/
inductive StmtAST where
  | varDecl (type : TypeAST) (name : List Char) (initializer : ExprAST)
  | assignment (name : List Char) (value : ExprAST)
  | ifStmt (condition : ExprAST) (thenStmt : StmtAST) (elseStmt : Option StmtAST)
  | whileStmt (condition : ExprAST) (body : StmtAST)
  | blockStmt (statements : List StmtAST)

inductive AccessModifierKind where
  | PUBLIC
  deriving DecidableEq, Repr

structure MethodImplAST where
  accessModifiers : List AccessModifierKind
  returnType : TypeAST
  name : List Char
  params : List TypedIdentifierAST
  body : List StmtAST

structure ClassAST where
  name : List Char
  methodImpls : List MethodImplAST
  blueprintNames : List (List Char)

/-- ParserUtils::getPrimitiveTypeFromToken from parser.hpp. -/
def getPrimitiveTypeFromToken (t : Int) : Option TypeAST :=
  if t = tok_i32 then some (.primitive .INT32)
  else if t = tok_f32 then some (.primitive .FLOAT32)
  else if t = tok_bool then some (.primitive .BOOL)
  else if t = tok_char then some (.primitive .CHAR)
  else if t = tok_void then some (.primitive .VOID)
  else none

/-- The outcome of a parser production: a node plus the lexer state (a
non-null unique_ptr return), err (a nullptr return after a reported
error), or dvg (the fuel bound was reached inside a loop the C++ code
would still be running). -/
inductive PR (α : Type) where
  | ok (a : α) (st : LexState)
  | err
  | dvg

/-- The lexer state carried by an ok outcome (initLexer otherwise); used
to state concrete evaluation results without binders. -/
def prState {α : Type} : PR α → LexState
  | .ok _ st => st
  | _ => initLexer

/-! The parser, from src/parser.  Parser state is exactly its Lexer. -/

/-- Parser::parseIntegerValue from valueParsers.cpp: reads the integer
payload of the current token, advances, builds an IntegerExprAST. -/
def parseIntegerValue (src : List Char) (st : LexState) : ExprAST × LexState :=
  let value := st.integerValue
  let p := getNextToken src st
  (.integerLit value, p.2)

/-- Parser::parseFloatValue (payload outside the embedding). -/
def parseFloatValue (src : List Char) (st : LexState) : ExprAST × LexState :=
  let p := getNextToken src st
  (.floatLit, p.2)

/-- Parser::parseBoolValue: reads the boolValue field, which the lexer
never writes. -/
def parseBoolValue (src : List Char) (st : LexState) : ExprAST × LexState :=
  let value := st.boolValue
  let p := getNextToken src st
  (.boolLit value, p.2)

/-- Parser::parseCharValue: reads the charValue field, which the lexer
never writes. -/
def parseCharValue (src : List Char) (st : LexState) : ExprAST × LexState :=
  let value := st.charValue
  let p := getNextToken src st
  (.charLit value, p.2)

/-- Parser::parseIdentifier. -/
def parseIdentifier (src : List Char) (st : LexState) : ExprAST × LexState :=
  let name := st.identifierName
  let p := getNextToken src st
  (.identifierExpr name, p.2)

/-- Parser::parsePrimaryExpression from valueParsers.cpp: dispatch on the
current token; unknown starts are an error (none). -/
def parsePrimaryExpression (src : List Char) (st : LexState) : Option (ExprAST × LexState) :=
  if st.currentToken = tok_integer_literal then some (parseIntegerValue src st)
  else if st.currentToken = tok_float_literal then some (parseFloatValue src st)
  else if st.currentToken = tok_true ∨ st.currentToken = tok_false then
    some (parseBoolValue src st)
  else if st.currentToken = tok_char_literal then some (parseCharValue src st)
  else if st.currentToken = tok_identifier then some (parseIdentifier src st)
  else none

/-- The static operator precedence table in expressionparser.cpp
(getTokenPrecedence); unknown text gives -1. -/
def getTokenPrecedence (op : List Char) : Int :=
  if op = "&&".toList then 5
  else if op = "||".toList then 5
  else if op = "==".toList then 10
  else if op = "!=".toList then 10
  else if op = "<".toList then 15
  else if op = ">".toList then 15
  else if op = "<=".toList then 15
  else if op = ">=".toList then 15
  else if op = "+".toList then 20
  else if op = "-".toList then 20
  else if op = "*".toList then 40
  else if op = "/".toList then 40
  else -1

/-- The operator-recognition switch at the top of Parser::parseBinaryOpRHS:
inl st means the switch returned the unchanged lhs (default case, or a
failed two-character lookahead for the equals, bang, ampersand and pipe
cases); inr (op, st) means operator text op was recognized.  For a lone
angle bracket the extra character read during lookahead is pushed back by
ungetCurrentToken. -/
def matchBinOp (src : List Char) (st : LexState) : LexState ⊕ (List Char × LexState) :=
  let tok := st.currentToken
  if tok = 43 then .inr ("+".toList, st)
  else if tok = 45 then .inr ("-".toList, st)
  else if tok = 42 then .inr ("*".toList, st)
  else if tok = 47 then .inr ("/".toList, st)
  else if tok = 61 then
    let p := getNextToken src st
    if p.1 = 61 then .inr ("==".toList, p.2) else .inl p.2
  else if tok = 33 then
    let p := getNextToken src st
    if p.1 = 61 then .inr ("!=".toList, p.2) else .inl p.2
  else if tok = 60 then
    let p := getNextToken src st
    if p.1 = 61 then .inr ("<=".toList, p.2) else .inr ("<".toList, ungetChar p.2)
  else if tok = 62 then
    let p := getNextToken src st
    if p.1 = 61 then .inr (">=".toList, p.2) else .inr (">".toList, ungetChar p.2)
  else if tok = 38 then
    let p := getNextToken src st
    if p.1 = 38 then .inr ("&&".toList, p.2) else .inl p.2
  else if tok = 124 then
    let p := getNextToken src st
    if p.1 = 124 then .inr ("||".toList, p.2) else .inl p.2
  else .inl st

/-- Parser::parseBinaryOpRHS from expressionparser.cpp.  Note: exactly as
in the source, the loop consumes the operator and parses the right-hand
operand, then continues without combining lhs, op and rhs into a
BinaryExprAST; the parsed rhs is discarded and the accumulated result is
always the original lhs (or err when a right-hand operand fails to
parse). -/
def parseBinaryOpRHS (src : List Char) : Nat → Int → ExprAST → LexState → PR ExprAST
  | 0, _, _, _ => .dvg
  | fuel + 1, exprPrecedence, lhs, st =>
    match matchBinOp src st with
    | .inl st' => .ok lhs st'
    | .inr (op, st') =>
      if getTokenPrecedence op < exprPrecedence then .ok lhs st'
      else
        let p := getNextToken src st'
        match parsePrimaryExpression src p.2 with
        | none => .err
        | some (_rhs, st2) => parseBinaryOpRHS src fuel exprPrecedence lhs st2

/-- The initializer skip loop in Parser::parseStatement (lines 35-37 of
statementParser.cpp): while the token is not a semicolon, fetch the next
token.  The C++ loop has no other exit; fuel exhaustion is none. -/
def skipToSemi (src : List Char) : Nat → Int → LexState → Option LexState
  | 0, _, _ => none
  | fuel + 1, tok, st =>
    if tok = 59 then some st
    else
      let p := getNextToken src st
      skipToSemi src fuel p.1 p.2

/-- Parser::parseStatement from statementParser.cpp: only variable
declarations (starting from i32, f32, bool or char) are implemented; the
initializer tokens are skipped up to the semicolon and the stored
initializer is a zero IntegerExprAST. -/
def parseStatement (src : List Char) (fuel : Nat) (st : LexState) : PR StmtAST :=
  let tok := st.currentToken
  if tok = tok_i32 ∨ tok = tok_f32 ∨ tok = tok_bool ∨ tok = tok_char then
    match getPrimitiveTypeFromToken tok with
    | none => .err
    | some varType =>
      let p := getNextToken src st
      if p.1 ≠ tok_identifier then .err
      else
        let varName := p.2.identifierName
        let q := getNextToken src p.2
        if q.1 ≠ 61 then .err
        else
          match skipToSemi src fuel q.1 q.2 with
          | none => .dvg
          | some st' => .ok (.varDecl varType varName (.integerLit 0)) st'
  else .err

/-- The parameter-list loop of Parser::parseMethodImplementation
(classParser.cpp lines 116-146), entered with the token after the opening
parenthesis. -/
def paramLoop (src : List Char) : Nat → Int → LexState → List TypedIdentifierAST →
    PR (List TypedIdentifierAST)
  | 0, _, _, _ => .dvg
  | fuel + 1, tok, st, acc =>
    if tok = 41 then .ok acc st
    else if ¬ isPrimitiveTypeToken tok then .err
    else
      match getPrimitiveTypeFromToken tok with
      | none => .err
      | some paramType =>
        let p := getNextToken src st
        if p.1 ≠ tok_identifier then .err
        else
          let paramName := p.2.identifierName
          let acc := acc ++ [TypedIdentifierAST.mk paramType paramName]
          let q := getNextToken src p.2
          if q.1 = 41 then .ok acc q.2
          else if q.1 ≠ 44 then .err
          else
            let r := getNextToken src q.2
            paramLoop src fuel r.1 r.2 acc

/-- The method-body loop of Parser::parseMethodImplementation
(classParser.cpp lines 156-167): fetch a token; a closing brace ends the
body (the token is returned for the check after the loop); otherwise
parseStatement runs on the lexer state (whose currentToken field the
statement parser reads). -/
def bodyLoop (src : List Char) (sfuel : Nat) : Nat → LexState → List StmtAST →
    PR (List StmtAST × Int)
  | 0, _, _ => .dvg
  | fuel + 1, st, acc =>
    let p := getNextToken src st
    if p.1 = 125 then .ok (acc, p.1) p.2
    else
      match parseStatement src sfuel p.2 with
      | .ok stmt st2 => bodyLoop src sfuel fuel st2 (acc ++ [stmt])
      | .err => .err
      | .dvg => .dvg

/-- Parser::parseMethodImplementation from classParser.cpp.  The access
modifier token is required and an AccessModifierAST is built from it, but
the constructed MethodImplAST receives an empty access-modifier vector
(line 177 of the source). -/
def parseMethodImplementation (src : List Char) (fuel : Nat) (st : LexState) :
    PR MethodImplAST :=
  let tok := st.currentToken
  if ¬ isAccessModifierToken tok then .err
  else
    let p := getNextToken src st
    if p.1 ≠ tok_void then .err
    else
      let returnType : TypeAST := .primitive .VOID
      let q := getNextToken src p.2
      if q.1 ≠ tok_identifier then .err
      else
        let methodName := q.2.identifierName
        let r := getNextToken src q.2
        if r.1 ≠ 40 then .err
        else
          let s := getNextToken src r.2
          match paramLoop src fuel s.1 s.2 [] with
          | .err => .err
          | .dvg => .dvg
          | .ok params st2 =>
            let t := getNextToken src st2
            if t.1 ≠ 123 then .err
            else
              match bodyLoop src fuel fuel t.2 [] with
              | .err => .err
              | .dvg => .dvg
              | .ok (body, lastTok) st3 =>
                if lastTok ≠ 125 then .err
                else
                  let u := getNextToken src st3
                  .ok (MethodImplAST.mk [] returnType methodName params body) u.2

/-- The method loop of Parser::parseClassDefinition (classParser.cpp lines
53-69): reads the stored current token; a closing brace ends the class
body, otherwise a method implementation is parsed. -/
def methodLoop (src : List Char) (mfuel : Nat) : Nat → LexState → List MethodImplAST →
    PR (List MethodImplAST)
  | 0, _, _ => .dvg
  | fuel + 1, st, acc =>
    if st.currentToken = 125 then .ok acc st
    else
      match parseMethodImplementation src mfuel st with
      | .ok m st2 => methodLoop src mfuel fuel st2 (acc ++ [m])
      | .err => .err
      | .dvg => .dvg

/-- Parser::parseClassDefinition from classParser.cpp.  The base-name
check after the colon is embedded exactly as written in the source: it
errors only when the token is not an identifier AND the stored identifier
text differs from Application.  The blueprint-name list is the hard-coded
singleton Application. -/
def parseClassDefinition (src : List Char) (fuel : Nat) (st : LexState) : PR ClassAST :=
  if st.currentToken ≠ tok_class then .err
  else
    let p := getNextToken src st
    if p.1 ≠ tok_identifier then .err
    else
      let className := p.2.identifierName
      let q := getNextToken src p.2
      if q.1 ≠ 58 then .err
      else
        let r := getNextToken src q.2
        if r.1 ≠ tok_identifier ∧ r.2.identifierName ≠ "Application".toList then .err
        else
          let blueprintNames : List (List Char) := ["Application".toList]
          let s := getNextToken src r.2
          if s.1 ≠ 123 then .err
          else
            let t := getNextToken src s.2
            match methodLoop src fuel fuel t.2 [] with
            | .err => .err
            | .dvg => .dvg
            | .ok methodImpls st2 =>
              let u := getNextToken src st2
              .ok (ClassAST.mk className methodImpls blueprintNames) u.2

/-- The top-level dispatch Parser::parse performs for a class keyword:
fetch the first token, then run parseClassDefinition on the resulting
state (whose currentToken field that function checks). -/
def parseClassFromSource (fuel : Nat) (src : List Char) : PR ClassAST :=
  let p := getNextToken src initLexer
  parseClassDefinition src fuel p.2

/-! Helper lemmas. -/

/-- A char whose code is 59 is the semicolon. -/
theorem char_of_code_59 {c : Char} (h : (c.toNat : Int) = 59) : c = ';' := by
  have hn : c.toNat = 59 := by omega
  have := Char.ofNat_toNat c
  rw [hn] at this
  exact this.symm

/-- At the end of the input the whitespace skip immediately reports EOF
without moving. -/
theorem skipWS_at_end (src : List Char) (st : LexState)
    (h : src.length ≤ st.currentIndex) : skipWS src st = (none, st) := by
  rw [skipWS]
  rw [show src.length + 1 = src.length + 1 from rfl]
  simp only [skipWSF]
  rw [dif_neg (by omega)]

/-- Lexer::getNextToken at the end of the input: returns tok_eof and
leaves the state unchanged (the C++ early return does not assign
currentToken). -/
theorem getNextToken_at_end (src : List Char) (st : LexState)
    (h : src.length ≤ st.currentIndex) : getNextToken src st = (tok_eof, st) := by
  rw [getNextToken]
  simp only [getNextTokenF]
  rw [skipWS_at_end src st h]

/-- Once the cursor is at the end of the input, every further token is
tok_eof. -/
theorem tokenAt_at_end (src : List Char) (st : LexState)
    (h : src.length ≤ st.currentIndex) : ∀ n, tokenAt src st n = tok_eof := by
  intro n
  induction n with
  | zero => simp [tokenAt, getNextToken_at_end src st h]
  | succ k ih => simp only [tokenAt, getNextToken_at_end src st h]; exact ih

/-- Every character the whitespace skip hands back occurs in the source. -/
theorem skipWSF_mem (src : List Char) :
    ∀ fuel st c st', skipWSF src fuel st = (some c, st') → c ∈ src := by
  intro fuel
  induction fuel with
  | zero => intro st c st' h; simp [skipWSF] at h
  | succ n ih =>
    intro st c st' h
    simp only [skipWSF] at h
    split at h
    · split at h
      · exact ih _ _ _ h
      · injection h with h1 h2
        injection h1 with h1
        rw [← h1]
        exact List.get_mem ..
    · simp at h

theorem skipWS_mem (src : List Char) (st : LexState) (c : Char) (st' : LexState)
    (h : skipWS src st = (some c, st')) : c ∈ src :=
  skipWSF_mem src _ st c st' h

/-- Every character getchar returns occurs in the source. -/
theorem getch_mem (src : List Char) (st : LexState) (c : Char) (st' : LexState)
    (h : getch src st = (some c, st')) : c ∈ src := by
  simp only [getch] at h
  split at h
  · injection h with h1 h2
    injection h1 with h1
    rw [← h1]
    exact List.get_mem ..
  · simp at h

/-- The keyword lookup only returns the negative named token codes. -/
theorem getKeywordToken_fst_neg (s : List Char) (st : LexState) :
    (getKeywordToken s st).1 < 0 := by
  rw [getKeywordToken]
  by_cases h1 : s = "i32".toList
  · rw [if_pos h1]; exact show tok_i32 < 0 by decide
  rw [if_neg h1]
  by_cases h2 : s = "f32".toList
  · rw [if_pos h2]; exact show tok_f32 < 0 by decide
  rw [if_neg h2]
  by_cases h3 : s = "bool".toList
  · rw [if_pos h3]; exact show tok_bool < 0 by decide
  rw [if_neg h3]
  by_cases h4 : s = "char".toList
  · rw [if_pos h4]; exact show tok_char < 0 by decide
  rw [if_neg h4]
  by_cases h5 : s = "void".toList
  · rw [if_pos h5]; exact show tok_void < 0 by decide
  rw [if_neg h5]
  by_cases h6 : s = "true".toList
  · rw [if_pos h6]; exact show tok_true < 0 by decide
  rw [if_neg h6]
  by_cases h7 : s = "false".toList
  · rw [if_pos h7]; exact show tok_false < 0 by decide
  rw [if_neg h7]
  by_cases h8 : s = "class".toList
  · rw [if_pos h8]; exact show tok_class < 0 by decide
  rw [if_neg h8]
  by_cases h9 : s = "if".toList
  · rw [if_pos h9]; exact show tok_if < 0 by decide
  rw [if_neg h9]
  by_cases h10 : s = "else".toList
  · rw [if_pos h10]; exact show tok_else < 0 by decide
  rw [if_neg h10]
  by_cases h11 : s = "while".toList
  · rw [if_pos h11]; exact show tok_while < 0 by decide
  rw [if_neg h11]
  by_cases h12 : s = "public".toList
  · rw [if_pos h12]; exact show tok_public < 0 by decide
  rw [if_neg h12]
  exact show tok_identifier < 0 by decide

/-- If the source contains no semicolon character, getNextToken never
returns the semicolon token code 59 (every raw-character token it emits is
a character of the source, and all named tokens are negative). -/
theorem getNextTokenF_ne_semi (src : List Char) (hs : ∀ c ∈ src, c ≠ ';') :
    ∀ fuel st, (getNextTokenF src fuel st).1 ≠ 59 := by
  intro fuel
  induction fuel with
  | zero => intro st; exact show tok_eof ≠ 59 by decide
  | succ n ih =>
    intro st
    simp only [getNextTokenF]
    rcases hsw : skipWS src st with ⟨oc, st1⟩
    cases oc with
    | none => exact show tok_eof ≠ 59 by decide
    | some ch =>
      simp only []
      split
      · have := getKeywordToken_fst_neg (scanIdent src ch st1).1 (ungetChar (scanIdent src ch st1).2)
        omega
      · split
        · rcases hsn : scanNum src ch st1 with ⟨onum, st2⟩
          cases onum with
          | none => exact show tok_eof ≠ 59 by decide
          | some nb =>
            rcases nb with ⟨numStr, isFloat⟩
            simp only []
            split
            · exact show tok_float_literal ≠ 59 by decide
            · exact show tok_integer_literal ≠ 59 by decide
        · split
          · rcases hgc : getch src st1 with ⟨oc2, st2⟩
            cases oc2 with
            | none => exact show (-1 : Int) ≠ 59 by decide
            | some c2 =>
              simp only []
              split
              · rcases hsl : skipLine src st2 with ⟨oc3, st3⟩
                cases oc3 with
                | some c3 => exact ih st3
                | none => exact show (-1 : Int) ≠ 59 by decide
              · split
                · rcases hsb : skipBlock src st2 with ⟨b3, st3⟩
                  cases b3 with
                  | true => exact ih st3
                  | false => exact show tok_eof ≠ 59 by decide
                · intro hc
                  exact hs c2 (getch_mem src st1 c2 st2 hgc) (char_of_code_59 hc)
          · intro hc
            exact hs ch (skipWS_mem src st ch st1 hsw) (char_of_code_59 hc)

theorem getNextToken_ne_semi (src : List Char) (hs : ∀ c ∈ src, c ≠ ';')
    (st : LexState) : (getNextToken src st).1 ≠ 59 :=
  getNextTokenF_ne_semi src hs _ st

/-- If the source contains no semicolon, the initializer skip loop of
parseStatement never exits, whatever the fuel. -/
theorem skipToSemi_never_exits (src : List Char) (hs : ∀ c ∈ src, c ≠ ';') :
    ∀ fuel tok st, tok ≠ 59 → skipToSemi src fuel tok st = none := by
  intro fuel
  induction fuel with
  | zero => intro tok st _; rfl
  | succ n ih =>
    intro tok st htok
    simp only [skipToSemi]
    rw [if_neg htok]
    exact ih _ _ (getNextToken_ne_semi src hs st)

/-! Lemmas supporting the numeric-literal claim: scanning an all-digit
source, and the 32-bit truncation arithmetic. -/

theorem digit_not_space {c : Char} (h : isdigit c.toNat = true) : isspace c.toNat = false := by
  simp [isdigit] at h
  simp [isspace]
  omega

theorem digit_not_alpha {c : Char} (h : isdigit c.toNat = true) : isalpha c.toNat = false := by
  simp [isdigit] at h
  simp [isalpha]
  omega

theorem digit_ne_dot {c : Char} (h : isdigit c.toNat = true) : c ≠ '.' := by
  intro he
  subst he
  exact absurd h (by decide)

theorem skipWS_no_space (src : List Char) (st : LexState)
    (h : st.currentIndex < src.length)
    (hns : isspace (src.get ⟨st.currentIndex, h⟩).toNat = false) :
    skipWS src st =
      (some (src.get ⟨st.currentIndex, h⟩), { st with currentIndex := st.currentIndex + 1 }) := by
  rw [skipWS]
  simp only [skipWSF]
  rw [dif_pos h, if_neg ?_]
  simp only [List.get_eq_getElem] at hns
  simp [hns]

theorem scanNumF_all_digits (src : List Char) :
    ∀ n fuel (st : LexState) (acc : List Char) (c : Char),
      src.length - st.currentIndex = n → n < fuel → st.currentIndex ≤ src.length →
      (∀ j (hj : j < src.length), st.currentIndex ≤ j → isdigit (src.get ⟨j, hj⟩).toNat = true) →
      isdigit c.toNat = true →
      scanNumF src fuel c false st acc =
        (some (acc ++ c :: src.drop st.currentIndex, false),
         { st with currentIndex := src.length }) := by
  intro n
  induction n with
  | zero =>
    intro fuel st acc c hn hfuel hle hdig hc
    obtain ⟨f, rfl⟩ : ∃ f, fuel = f + 1 := ⟨fuel - 1, by omega⟩
    have hidx : st.currentIndex = src.length := by omega
    simp only [scanNumF]
    rw [if_neg (by simp [digit_ne_dot hc])]
    rw [dif_neg (by omega)]
    rw [List.drop_eq_nil_of_le (le_of_eq hidx.symm)]
    rw [show ({ st with currentIndex := src.length } : LexState) = st from by rw [← hidx]]
    simp [digit_ne_dot hc]
  | succ k ih =>
    intro fuel st acc c hn hfuel hle hdig hc
    obtain ⟨f, rfl⟩ : ∃ f, fuel = f + 1 := ⟨fuel - 1, by omega⟩
    have hidx : st.currentIndex < src.length := by omega
    simp only [scanNumF]
    rw [if_neg (by simp [digit_ne_dot hc])]
    rw [dif_pos hidx]
    have hch : isdigit (src.get ⟨st.currentIndex, hidx⟩).toNat = true := hdig _ hidx le_rfl
    rw [if_pos (Or.inl hch)]
    rw [show (false || decide (c = '.')) = false from by simp [digit_ne_dot hc]]
    rw [ih f { st with currentIndex := st.currentIndex + 1 } (acc ++ [c])
          (src.get ⟨st.currentIndex, hidx⟩)
          (show src.length - (st.currentIndex + 1) = k from by omega)
          (by omega)
          (show st.currentIndex + 1 ≤ src.length from by omega)
          (fun j hj hij => hdig j hj (Nat.le_of_succ_le hij))
          hch]
    rw [List.drop_eq_getElem_cons hidx]
    simp [List.get_eq_getElem]


theorem wrap32_of_small (s : List Char) (h : natOfDigits s < 2 ^ 31) :
    wrap32 (strtollDigits s) = (natOfDigits s : Int) := by
  have hI : (natOfDigits s : Int) < 2 ^ 31 := by exact_mod_cast h
  have h0 : (0 : Int) ≤ (natOfDigits s : Int) := Int.natCast_nonneg _
  rw [strtollDigits, min_eq_left (by omega), wrap32]
  rw [Int.emod_eq_of_lt (by omega) (by omega)]
  omega

theorem getNextToken_digits (d : Char) (tl : List Char)
    (h2 : ∀ c ∈ d :: tl, isdigit c.toNat = true) :
    getNextToken (d :: tl) initLexer =
      (tok_integer_literal,
       LexState.mk (d :: tl).length tok_integer_literal
         (wrap32 (strtollDigits (d :: tl))) [] false (Char.ofNat 0)) := by
  have hd0 : isdigit d.toNat = true := h2 d (List.mem_cons_self d tl)
  have hws : skipWS (d :: tl) initLexer =
      (some d, LexState.mk 1 0 0 [] false (Char.ofNat 0)) := by
    rw [skipWS_no_space (d :: tl) initLexer (show (0:Nat) < (d :: tl).length by simp)
         (by simpa using digit_not_space hd0)]
    rfl
  have hscan : scanNum (d :: tl) d (LexState.mk 1 0 0 [] false (Char.ofNat 0)) =
      (some (d :: tl, false),
       LexState.mk (d :: tl).length 0 0 [] false (Char.ofNat 0)) := by
    rw [scanNum]
    rw [scanNumF_all_digits (d :: tl) ((d :: tl).length - 1) ((d :: tl).length + 1)
          (LexState.mk 1 0 0 [] false (Char.ofNat 0)) [] d
          (by simp) (by simp; omega) (by simp)
          (fun j hj hij => h2 _ (List.get_mem ..))
          hd0]
    simp
  rw [getNextToken]
  simp only [getNextTokenF, hws]
  rw [if_neg (by simp [digit_not_alpha hd0])]
  rw [if_pos (Or.inl hd0)]
  simp only [hscan]
  simp

/-! Concrete inputs used by the claims. -/

def c1src : List Char :=
  "class Foo : Application \x7b public void bar(i32 x) \x7b i32 y = 0 ; \x7d \x7d".toList

def c5src : List Char := "class Foo : Base \x7b \x7d".toList

def c2asrc : List Char := "1 + 2 * 3".toList

def c2bsrc : List Char := "1 * 2 + 3".toList

/-- The left operand and lexer state a caller has after parsing the
leading integer literal of the expression source (mirrors the C++ call
sequence: fetch the first token, then parsePrimaryExpression via
parseIntegerValue). -/
def c2alhs : ExprAST × LexState := parseIntegerValue c2asrc (getNextToken c2asrc initLexer).2

def c2blhs : ExprAST × LexState := parseIntegerValue c2bsrc (getNextToken c2bsrc initLexer).2

def c3src : List Char := "a".toList

/-- The lexer state after the first getNextToken on source a: the cursor
is back at index 0 because the identifier scan over-read EOF (which did
not advance the cursor) and ungetCurrentToken still rewound by one. -/
def c3state : LexState := LexState.mk 0 tok_identifier 0 ("a".toList) false (Char.ofNat 0)

def c4src : List Char := "/x".toList

def c6big : List Char := "2147483648".toList

def c7src : List Char := "i32 y = 5 ;".toList

def c7state : LexState := (getNextToken c7src initLexer).2

def c7post : LexState := prState (parseStatement c7src 100 c7state)

def c8src : List Char := "1+2".toList

def c9src : List Char := "i32 y = 0".toList

def c9state : LexState := (getNextToken c9src initLexer).2

/-- The lexer state of the C9 scenario at the moment parseStatement enters
its initializer skip loop (after the i32, the identifier and the equals
sign have been consumed). -/
def c9skipState : LexState := (getNextToken c9src (getNextToken c9src c9state).2).2

def c10src : List Char := "public void bar(i32 x) \x7b i32 y = 0 ; \x7d".toList

def c10state : LexState := (getNextToken c10src initLexer).2

def c10post : LexState := prState (parseMethodImplementation c10src 100 c10state)

def c10method : MethodImplAST :=
  MethodImplAST.mk [] (.primitive .VOID) ("bar".toList)
    [TypedIdentifierAST.mk (.primitive .INT32) ("x".toList)]
    [StmtAST.varDecl (.primitive .INT32) ("y".toList) (.integerLit 0)]

/-! The claims. -/

/-- Claim C1: parsing the round-trip source text succeeds and produces a
Class node named Foo with blueprint-name list exactly Application,
containing exactly one MethodImpl named bar with exactly one parameter of
type INT32 named x and a body of exactly one statement, a VarDecl of type
INT32 named y with an initializer expression (the zero placeholder the
statement parser stores). -/
theorem C1_roundtrip :
    parseClassFromSource 100 c1src =
      .ok (ClassAST.mk ("Foo".toList)
            [MethodImplAST.mk [] (.primitive .VOID) ("bar".toList)
              [TypedIdentifierAST.mk (.primitive .INT32) ("x".toList)]
              [StmtAST.varDecl (.primitive .INT32) ("y".toList) (.integerLit 0)]]
            [("Application".toList)])
        (prState (parseClassFromSource 100 c1src)) := rfl

/-- Claim C2, against the code: parseBinaryOpRHS, entered with minimum
precedence 0 and a parsed left operand 1 on the token stream of
1 + 2 * 3 (and of 1 * 2 + 3), returns the original left operand
IntegerExprAST 1 unchanged; no BinaryExprAST is ever constructed, so the
result is not the claimed tree 1 + (2 * 3) (respectively (1 * 2) + 3).
The spec itself records that the loop does not yet combine lhs, op and
rhs into a node. -/
theorem C2_rhs_discarded :
    c2alhs.1 = .integerLit 1 ∧
    parseBinaryOpRHS c2asrc 100 0 (.integerLit 1) c2alhs.2 =
      .ok (.integerLit 1) (prState (parseBinaryOpRHS c2asrc 100 0 (.integerLit 1) c2alhs.2)) ∧
    (∀ op l r st2, parseBinaryOpRHS c2asrc 100 0 (.integerLit 1) c2alhs.2 ≠
      .ok (.binaryExpr op l r) st2) ∧
    c2blhs.1 = .integerLit 1 ∧
    parseBinaryOpRHS c2bsrc 100 0 (.integerLit 1) c2blhs.2 =
      .ok (.integerLit 1) (prState (parseBinaryOpRHS c2bsrc 100 0 (.integerLit 1) c2blhs.2)) ∧
    (∀ op l r st2, parseBinaryOpRHS c2bsrc 100 0 (.integerLit 1) c2blhs.2 ≠
      .ok (.binaryExpr op l r) st2) := by
  have ea : parseBinaryOpRHS c2asrc 100 0 (.integerLit 1) c2alhs.2 =
      .ok (.integerLit 1) (prState (parseBinaryOpRHS c2asrc 100 0 (.integerLit 1) c2alhs.2)) := rfl
  have eb : parseBinaryOpRHS c2bsrc 100 0 (.integerLit 1) c2blhs.2 =
      .ok (.integerLit 1) (prState (parseBinaryOpRHS c2bsrc 100 0 (.integerLit 1) c2blhs.2)) := rfl
  refine ⟨rfl, ea, ?_, rfl, eb, ?_⟩
  · intro op l r st2 h
    have hcontr := ea.symm.trans h
    injection hcontr with h1 h2
    cases h1
  · intro op l r st2 h
    have hcontr := eb.symm.trans h
    injection hcontr with h1 h2
    cases h1

/-- Claim C3, against the code: on the one-character source a, every call
to getNextToken returns tok_identifier and never tok_eof — after the
identifier scan over-reads EOF (which does not advance the cursor),
ungetCurrentToken still rewinds the cursor into the identifier, so the
lexer re-reads the same character forever and the token stream never
reaches tok_eof, contradicting the claim that it eventually does. -/
theorem C3_never_eof : ∀ n, tokenAt c3src initLexer n ≠ tok_eof := by
  have hfix : ∀ n, tokenAt c3src c3state n = tok_identifier := by
    intro n
    induction n with
    | zero => rfl
    | succ k ih =>
      show tokenAt c3src (getNextToken c3src c3state).2 k = tok_identifier
      rw [show (getNextToken c3src c3state).2 = c3state from rfl]
      exact ih
  intro n
  cases n with
  | zero => exact by decide
  | succ k =>
    show tokenAt c3src (getNextToken c3src initLexer).2 k ≠ tok_eof
    rw [show (getNextToken c3src initLexer).2 = c3state from rfl, hfix k]
    decide

/-- Claim C4, against the code: when getNextToken reads a slash that is
not followed by a second slash or a star, it does not return the slash
token; the fall-through returns the character after the slash (here x,
code 120) and both characters are consumed (cursor at 2), so a slash
token (code 47) is never produced on source /x. -/
theorem C4_slash_swallowed :
    (getNextToken c4src initLexer).1 = 120 ∧
    (getNextToken c4src initLexer).2.currentIndex = 2 ∧
    (∀ n, tokenAt c4src initLexer n ≠ 47) := by
  refine ⟨by decide, by decide, ?_⟩
  intro n
  cases n with
  | zero => exact by decide
  | succ k =>
    show tokenAt c4src (getNextToken c4src initLexer).2 k ≠ 47
    rw [tokenAt_at_end c4src _ (by decide) k]
    decide

/-- Claim C5, against the code: for the input class Foo : Base, whose
token after the colon is an identifier with text Base (not Application),
class parsing does not report an error; it succeeds and returns a Class
node (with the hard-coded blueprint list Application), because the
conjunctive base-name check only fires when the token is not an
identifier AND the stored name differs from Application. -/
theorem C5_base_name_accepted :
    parseClassFromSource 100 c5src =
      .ok (ClassAST.mk ("Foo".toList) [] [("Application".toList)])
        (prState (parseClassFromSource 100 c5src)) := rfl

/-- Claim C6, counterexample: the digit lexeme 2147483648 (value 2^31)
lexes to tok_integer_literal, but the payload returned by
getIntegerValue is not the base-10 value of the lexeme: integerValue is a
32-bit int field, so the strtoll result is truncated. -/
theorem C6_counterexample :
    (getNextToken c6big initLexer).1 = tok_integer_literal ∧
    (natOfDigits c6big : Int) = 2147483648 ∧
    (getNextToken c6big initLexer).2.integerValue ≠ (natOfDigits c6big : Int) :=
  ⟨by decide, by decide, by decide⟩

/-- Claim C6, amended: for every lexeme of decimal digits, getNextToken
on a fresh lexer returns tok_integer_literal, and whenever the base-10
value of the lexeme fits in a 32-bit signed int (is below 2^31) the
stored integer payload equals that value. -/
theorem C6_amended (ds : List Char) (h1 : ds ≠ [])
    (h2 : ∀ c ∈ ds, isdigit c.toNat = true)
    (h3 : natOfDigits ds < 2 ^ 31) :
    (getNextToken ds initLexer).1 = tok_integer_literal ∧
    (getNextToken ds initLexer).2.integerValue = (natOfDigits ds : Int) := by
  obtain ⟨d, tl, rfl⟩ : ∃ d tl, ds = d :: tl := by
    cases ds with
    | nil => exact absurd rfl h1
    | cons d tl => exact ⟨d, tl, rfl⟩
  rw [getNextToken_digits d tl h2]
  exact ⟨rfl, wrap32_of_small _ h3⟩

/-- Witness for C6_amended at the concrete lexeme 42. -/
theorem C6_witness :
    (getNextToken ("42".toList) initLexer).1 = tok_integer_literal ∧
    (getNextToken ("42".toList) initLexer).2.integerValue = (natOfDigits ("42".toList) : Int) :=
  C6_amended ("42".toList) (by decide) (by decide) (by decide)

/-- Claim C7: every statement parseStatement returns successfully is a
VarDecl whose stored initializer is the integer literal 0, whatever the
initializer tokens were (they are skipped up to the semicolon, not
parsed). -/
theorem C7_initializer_always_zero (src : List Char) (fuel : Nat) (st : LexState)
    (stmt : StmtAST) (st' : LexState)
    (h : parseStatement src fuel st = .ok stmt st') :
    ∃ ty nm, stmt = .varDecl ty nm (.integerLit 0) := by
  rw [parseStatement] at h
  split at h
  · split at h
    · cases h
    · simp only [] at h
      split at h
      · cases h
      · split at h
        · cases h
        · split at h
          · cases h
          · injection h with h1 h2
            exact ⟨_, _, h1.symm⟩
  · cases h

/-- Witness for C7 at the concrete declaration i32 y = 5 ; — the
initializer tokens are the literal 5, yet the stored initializer is 0. -/
theorem C7_witness :
    parseStatement c7src 100 c7state =
      .ok (.varDecl (.primitive .INT32) ("y".toList) (.integerLit 0)) c7post ∧
    ∃ ty nm, (StmtAST.varDecl (.primitive .INT32) ("y".toList) (.integerLit 0) : StmtAST) =
      .varDecl ty nm (.integerLit 0) :=
  ⟨rfl, C7_initializer_always_zero c7src 100 c7state _ c7post rfl⟩

/-- Claim C8: after a numeric literal the terminating character has
already been consumed and is not pushed back, so it is never produced as
a token: 1+2 lexes as integer 1, then integer 2, then tok_eof, and no
plus token (code 43) ever appears in the stream. -/
theorem C8_numeric_terminator_consumed :
    tokenAt c8src initLexer 0 = tok_integer_literal ∧
    (getNextToken c8src initLexer).2.integerValue = 1 ∧
    tokenAt c8src initLexer 1 = tok_integer_literal ∧
    (getNextToken c8src (getNextToken c8src initLexer).2).2.integerValue = 2 ∧
    tokenAt c8src initLexer 2 = tok_eof ∧
    (∀ n, tokenAt c8src initLexer n ≠ 43) := by
  refine ⟨by decide, by decide, by decide, by decide, by decide, ?_⟩
  intro n
  match n with
  | 0 => exact by decide
  | 1 => exact by decide
  | (k + 2) =>
    show tokenAt c8src (getNextToken c8src (getNextToken c8src initLexer).2).2 k ≠ 43
    rw [tokenAt_at_end c8src _ (by decide) k]
    decide

/-- Claim C9: the initializer skip loop of parseStatement exits only on a
semicolon token.  If the source contains no semicolon the loop never
exits (whatever the fuel); getNextToken called with the cursor at the end
of the input always returns tok_eof, which is never the semicolon; and on
the concrete declaration i32 y = 0 with no semicolon, parseStatement
never returns. -/
theorem C9_skip_loop_never_exits :
    (∀ (src : List Char), (∀ c ∈ src, c ≠ ';') →
       ∀ fuel tok st, tok ≠ 59 → skipToSemi src fuel tok st = none) ∧
    (∀ (src : List Char) (st : LexState), src.length ≤ st.currentIndex →
       (getNextToken src st).1 = tok_eof) ∧
    (∀ fuel, parseStatement c9src fuel c9state = .dvg) := by
  refine ⟨fun src hs fuel tok st htok => skipToSemi_never_exits src hs fuel tok st htok,
    fun src st h => by rw [getNextToken_at_end src st h], ?_⟩
  intro fuel
  show (match skipToSemi c9src fuel 61 c9skipState with
        | none => (.dvg : PR StmtAST)
        | some st' => .ok (.varDecl (.primitive .INT32) ("y".toList) (.integerLit 0)) st') = .dvg
  rw [skipToSemi_never_exits c9src (by decide) fuel 61 c9skipState (by decide)]

/-- Witness for C9 at concrete inputs: a skip loop run with fuel 7 on the
semicolon-free source, and getNextToken at an end-of-input cursor. -/
theorem C9_witness :
    skipToSemi c9src 7 61 initLexer = none ∧
    (getNextToken c9src (LexState.mk 9 0 0 [] false (Char.ofNat 0))).1 = tok_eof :=
  ⟨C9_skip_loop_never_exits.1 c9src (by decide) 7 61 initLexer (by decide),
   C9_skip_loop_never_exits.2.1 c9src (LexState.mk 9 0 0 [] false (Char.ofNat 0)) (by decide)⟩

/-- Claim C10: every MethodImpl node parseMethodImplementation returns has
an empty access-modifier list — the required public token is parsed and
then discarded; the constructor receives an empty vector. -/
theorem C10_access_modifiers_discarded (src : List Char) (fuel : Nat) (st : LexState)
    (m : MethodImplAST) (st' : LexState)
    (h : parseMethodImplementation src fuel st = .ok m st') :
    m.accessModifiers = [] := by
  rw [parseMethodImplementation] at h
  split at h
  · cases h
  · simp only [] at h
    split at h
    · cases h
    · split at h
      · cases h
      · split at h
        · cases h
        · split at h
          · cases h
          · cases h
          · split at h
            · cases h
            · split at h
              · cases h
              · cases h
              · split at h
                · cases h
                · injection h with h1 h2
                  rw [← h1]

/-- Witness for C10 at the concrete method public void bar(i32 x), whose
parse consumed the public modifier yet produced an empty modifier
list. -/
theorem C10_witness :
    parseMethodImplementation c10src 100 c10state = .ok c10method c10post ∧
    c10method.accessModifiers = [] :=
  ⟨rfl, C10_access_modifiers_discarded c10src 100 c10state c10method c10post rfl⟩

end BluePrint
